import Mathlib

/-!
Shallow embedding of the data-binding and color-classification pipeline of the
`powerbi_visuals_globe_countries` visual (`src/src/visual.ts`).

JavaScript values flowing through the pipeline (category values, color values,
measure values) are modelled by `JVal`; `undefined` is explicit, JS `NaN` is
modelled as `Option.none` results of the numeric coercion `toNumber`.
d3 colors are modelled symbolically by `D3Color`: `ylOrRdParam p` stands for
`d3.interpolateYlOrRd` evaluated at the clamped parameter `p` (the d3 basis
interpolator clamps its argument into [0,1]); two such colors are treated as
equal exactly when their parameters are equal (the YlOrRd ramp is injective at
the parameters compared in this development). `cat10 i` stands for
`d3.schemeCategory10[i]`.  Machine floats are modelled by exact rationals.
-/

namespace GlobeVis

/-- A JavaScript value as it appears in the visual's data arrays. -/
inductive JVal where
  | num (q : ℚ)
  | str (s : String)
  | undef
deriving DecidableEq, Repr

/-- Digits of a decimal literal to a natural number (helper for `jsStrToNum`). -/
def digitsToNat (cs : List Char) : Nat :=
  cs.foldl (fun n c => 10 * n + (c.toNat - 48)) 0

/-- JS `Number(string)` coercion on the string shapes that occur in this
pipeline: the empty string converts to 0, optional sign, decimal integer or
decimal fraction literals convert to their value, anything else is NaN
(`none`).  (Exponent notation and whitespace trimming are outside the inputs
exercised here.) -/
def jsStrToNum (s : String) : Option ℚ :=
  let cs := s.toList
  if cs = [] then some 0 else
  let signBody : Bool × List Char :=
    match cs with
    | '-' :: rest => (true, rest)
    | '+' :: rest => (false, rest)
    | l => (false, l)
  let neg := signBody.1
  let body := signBody.2
  let ip := body.takeWhile Char.isDigit
  let rest := body.dropWhile Char.isDigit
  match rest with
  | [] =>
      if ip = [] then none
      else some (if neg then -(digitsToNat ip : ℚ) else (digitsToNat ip : ℚ))
  | '.' :: fp =>
      if fp.all Char.isDigit ∧ (ip ≠ [] ∨ fp ≠ []) then
        let mag : ℚ := (digitsToNat ip : ℚ) + (digitsToNat fp : ℚ) / (10 ^ fp.length : ℚ)
        some (if neg then -mag else mag)
      else none
  | _ => none

/-- JS `+value` numeric coercion; `none` models NaN. -/
def toNumber : JVal → Option ℚ
  | .num q => some q
  | .str s => jsStrToNum s
  | .undef => none

/-- `isNumeric` from `visual.ts` (`!isNaN(value) && isFinite(value)`): true
exactly when the value coerces to a finite number (rationals are always
finite). -/
def isNumericB (v : JVal) : Bool :=
  (toNumber v).isSome

/-- JS truthiness test used by `value || 0`. -/
def jsFalsy : JVal → Bool
  | .num q => q = 0
  | .str s => s = ""
  | .undef => true

/-- A d3 color, symbolically. -/
inductive D3Color where
  /-- `interpolateYlOrRd` at clamped parameter `p ∈ [0,1]`. -/
  | ylOrRdParam (p : ℚ)
  /-- `interpolateYlOrRd` at `Real.sqrt t` for `0 < t < 1` with `t` not a
  rational square (normal form residue of the sqrt scale; such a parameter is
  irrational, hence distinct from every `ylOrRdParam`). -/
  | ylOrRdSqrtOf (t : ℚ)
  /-- `schemeCategory10[i]`. -/
  | cat10 (i : Nat)
  /-- A CSS color literal from the source. -/
  | cssColor (s : String)
  /-- The scale's `unknown` result (JS `undefined`) for NaN input. -/
  | undefinedColor
deriving DecidableEq, Repr

/-- Clamp into `[0,1]` (the d3 basis interpolator clamps its argument). -/
def clamp01 (q : ℚ) : ℚ := if q ≤ 0 then 0 else if 1 ≤ q then 1 else q

/-- Exact rational square root, when it exists. -/
def ratSqrt? (q : ℚ) : Option ℚ :=
  if q < 0 then none else
  let n := q.num.toNat
  let d := q.den
  let sn := Nat.sqrt n
  let sd := Nat.sqrt d
  if sn * sn = n ∧ sd * sd = d then some ((sn : ℚ) / (sd : ℚ)) else none

/-- `d3.scaleSequentialSqrt(d3.interpolateYlOrRd)` with its default domain
`[0,1]`, applied to numeric `v`: the scale's parameter is `sqrt v` (negative
inputs give a negative parameter), clamped into `[0,1]` by the interpolator. -/
def mkSqrtColor (v : ℚ) : D3Color :=
  if v ≤ 0 then .ylOrRdParam 0
  else if 1 ≤ v then .ylOrRdParam 1
  else
    match ratSqrt? v with
    | some r => .ylOrRdParam r
    | none => .ylOrRdSqrtOf v

/-- `d3.scaleSequential(d3.interpolateYlOrRd).domain([lo, hi])` at numeric `x`:
parameter `(x-lo)/(hi-lo)`, or `0.5` when the domain is degenerate
(`k10 === 0` in d3-scale), clamped by the interpolator. -/
def mkSeqColor (lo hi x : ℚ) : D3Color :=
  .ylOrRdParam (clamp01 (if lo = hi then 1/2 else (x - lo) / (hi - lo)))

/-- The `ColorScale` dichotomy of `determineColorScale`. -/
inductive ScaleModel where
  /-- `d3.scaleSequential(d3.interpolateYlOrRd).domain([lo, hi])`; a `none`
  endpoint models a NaN domain bound. -/
  | seqYlOrRd (lo hi : Option ℚ)
  /-- `d3.scaleOrdinal(d3.schemeCategory10).domain(dom)`. -/
  | ordCat10 (dom : List JVal)
deriving DecidableEq, Repr

def ScaleModel.isSeq : ScaleModel → Bool
  | .seqYlOrRd _ _ => true
  | .ordCat10 _ => false

/-- Coerce every element JS-style; any NaN poisons the whole result (as it
poisons `Math.min`/`Math.max` over the spread list). -/
def toNumbers? : List JVal → Option (List ℚ)
  | [] => some []
  | v :: vs =>
      match toNumber v, toNumbers? vs with
      | some q, some qs => some (q :: qs)
      | _, _ => none

/-- Binary minimum on ℚ (explicit, kernel-computable form). -/
def minStep (a b : ℚ) : ℚ := if b ≤ a then b else a

/-- Binary maximum on ℚ (explicit, kernel-computable form). -/
def maxStep (a b : ℚ) : ℚ := if a ≤ b then b else a

/-- `Math.min(...list)` with JS coercion; `none` models a NaN result (and
conflates the empty spread, which yields `Infinity` and is unreachable in the
numeric branch). -/
def jsMin (l : List JVal) : Option ℚ :=
  match toNumbers? l with
  | some (x :: xs) => some (xs.foldl minStep x)
  | _ => none

/-- `Math.max(...list)` with JS coercion; `none` models NaN. -/
def jsMax (l : List JVal) : Option ℚ :=
  match toNumbers? l with
  | some (x :: xs) => some (xs.foldl maxStep x)
  | _ => none

/-- `Array.from(new Set(dataColors))`: distinct values in insertion
(first-seen) order, as the source computes it. -/
def dedupFS (cs : List JVal) : List JVal :=
  cs.foldl (fun acc v => if v ∈ acc then acc else acc ++ [v]) []

/-- Distinct values in first-seen order, stated as the spec words it: keep each
element and drop its later duplicates. -/
def firstSeen : List JVal → List JVal
  | [] => []
  | v :: vs => v :: firstSeen (vs.filter (fun u => u ≠ v))
termination_by l => l.length
decreasing_by
  simp only [List.length_cons]
  exact Nat.lt_succ_of_le (List.length_filter_le _ _)

/-- `determineColorScale` from `visual.ts:372`: numeric first element builds
the sequential YlOrRd scale over `[Math.min(...), Math.max(...)]`, otherwise an
ordinal `schemeCategory10` scale over the distinct values. -/
def determineColorScale (dataColors : List JVal) : ScaleModel :=
  if isNumericB ((dataColors.get? 0).getD .undef) then
    .seqYlOrRd (jsMin dataColors) (jsMax dataColors)
  else
    .ordCat10 (dedupFS dataColors)

/-- Evaluate a sequential scale (d3: NaN input returns the `unknown` value,
i.e. `undefined`; a NaN domain bound makes the parameter NaN, and the basis
interpolator indexes with NaN producing NaN channels — both non-colors are
collapsed into `undefinedColor`). -/
def evalSeq (lo hi : Option ℚ) (v : JVal) : D3Color :=
  match toNumber v with
  | none => .undefinedColor
  | some x =>
      match lo, hi with
      | some l, some h => mkSeqColor l h x
      | _, _ => .undefinedColor

/-- Evaluate an ordinal scale: a domain member maps to the palette color at its
domain index modulo the palette size; an unknown value is appended to the
domain (modelled as index `dom.length` for the evaluation at hand). -/
def evalOrd (dom : List JVal) (v : JVal) : D3Color :=
  .cat10 (dom.indexOf v % 10)

def evalScale : ScaleModel → JVal → D3Color
  | .seqYlOrRd lo hi, v => evalSeq lo hi v
  | .ordCat10 dom, v => evalOrd dom v

/-! ## Features, visual state, and the update cycle -/

/-- The mutable `properties` attributes stamped by `updateChoropleth`.
`tooltips` is the ordered association of the `tooltip{i}` keys to their stored
display-name values (JS object keys keep insertion order; re-assigning a key
keeps its position). -/
structure FProps where
  value : Option JVal := none
  orderIndex : Option Nat := none
  tooltips : List (Nat × String) := []
deriving DecidableEq, Repr

/-- A GeoJSON feature of the catalog: region code `ISO_A2`, display name
`ADMIN`, and the mutable attributes. Geometry is opaque and omitted. -/
structure Feature where
  iso_a2 : String
  admin : String
  props : FProps
deriving DecidableEq, Repr

/-- Assign `tooltip{i} := s` on a JS object: overwrite in place if the key
exists, else append. -/
def setTooltip (l : List (Nat × String)) (i : Nat) (s : String) : List (Nat × String) :=
  if l.any (fun p => p.1 = i) then l.map (fun p => if p.1 = i then (i, s) else p)
  else l ++ [(i, s)]

def lookupTooltip (l : List (Nat × String)) (i : Nat) : Option String :=
  (l.find? (fun p => p.1 = i)).map Prod.snd

/-- A host-issued selection id; `createSelectionIdBuilder().withCategory(col, i)`
is opaque to the core, so the token is identified by the category index it was
built from. -/
structure SelToken where
  catIndex : Nat
deriving DecidableEq, Repr

/-- Which closure is currently installed as the globe's `polygonCapColor`.
The closures read the live instance fields, so they are evaluated against the
state at render time (`evalCapColor`). -/
inductive CapColorFn where
  /-- The closure installed by `setupGlobe` (uses `this.colorScale`). -/
  | fromSetup
  /-- The closure installed by `updateChoropleth` (uses its own local
  `d3.scaleSequentialSqrt(d3.interpolateYlOrRd)` with the default domain). -/
  | fromChoropleth
  /-- The closure installed by `clearGlobe` (constant `'#FFFFFF'`). -/
  | cleared
deriving DecidableEq, Repr

/-- The instance fields of `Visual` plus the observable globe/legend state. -/
structure VState where
  /-- `originalCountriesData.features`; the feature objects are shared with
  every list derived from them, so stamping mutates the catalog. -/
  catalog : List Feature
  dataMeasuresDisplayName : List String
  dataMeasuresValue : List (List JVal)
  dataColors : List JVal
  dataCategories : List String
  dataCategoriesSelections : List SelToken
  colorScale : ScaleModel
  legendDisplay : Bool
  legendEntries : List (D3Color × String)
  globePolygons : List Feature
  capColor : CapColorFn
deriving DecidableEq, Repr

/-- The state right after the constructor: empty data arrays, hidden legend,
nothing rendered (`this.colorScale` is still unassigned; it is re-assigned by
`determineColorScale` before any use inside an update cycle). -/
def initState (cat : List Feature) : VState where
  catalog := cat
  dataMeasuresDisplayName := []
  dataMeasuresValue := []
  dataColors := []
  dataCategories := []
  dataCategoriesSelections := []
  colorScale := .ordCat10 []
  legendDisplay := false
  legendEntries := []
  globePolygons := []
  capColor := .cleared

/-- The categorical payload of one `update` call. `categories? = none` models
`dataView.categorical.categories` being absent. -/
structure DataView where
  categories? : Option (List String)
  colorValues : List JVal
  measures : List (String × List JVal)

/-- `filterCountriesByCategories` (`visual.ts:363`): keep the features whose
`ADMIN` occurs among the category values. The returned list shares its feature
objects with the catalog. -/
def filterCountriesByCategories (catalog : List Feature) (cats : List String) : List Feature :=
  catalog.filter (fun f => cats.contains f.admin)

/-- `clearGlobe` (`visual.ts:357`): empty the polygon set and install the
constant white cap color.  It does not touch the legend container. -/
def clearGlobe (st : VState) : VState :=
  { st with globePolygons := [], capColor := .cleared }

/-- The `forEach` body of `updateChoropleth` on one feature: find the first row
whose `name` equals the feature's `ADMIN` and stamp `orderIndex`, `value`
(only when a color field is bound; out-of-range color lookup defaults to 0 via
`?? 0`), and `tooltip{i}` for each currently bound measure. An unmatched
feature is left untouched. -/
def stampFeature (cats : List String) (colors : List JVal) (names : List String)
    (f : Feature) : Feature :=
  match cats.findIdx? (fun c => c = f.admin) with
  | none => f
  | some idx =>
      let p1 := { f.props with orderIndex := some idx }
      let p2 :=
        if colors.length > 0 then
          { p1 with value := some ((colors.get? idx).getD (.num 0)) }
        else p1
      let p3 := { p2 with
        tooltips := names.enum.foldl (fun acc q => setTooltip acc q.1 q.2) p2.tooltips }
      { f with props := p3 }

/-- `updateChoropleth` (`visual.ts:220`): stamp the matched features (the
shared objects, hence the catalog itself) and hand the category-filtered
feature list to `polygonsData`, installing the choropleth cap-color closure
over a fresh local `scaleSequentialSqrt`. With no categories it clears the
globe instead. -/
def updateChoropleth (st : VState) : VState :=
  if st.dataCategories.length > 0 then
    let catalog' := st.catalog.map
      (stampFeature st.dataCategories st.dataColors st.dataMeasuresDisplayName)
    { st with
      catalog := catalog',
      globePolygons := filterCountriesByCategories catalog' st.dataCategories,
      capColor := .fromChoropleth }
  else clearGlobe st

/-- `setupGlobe` (`visual.ts:183`): rebuild `this.colorScale`, set the polygon
set to the catalog without the `'AQ'` feature, and install the setup cap-color
closure. Rendering-only settings (images, background, altitude) are out of
scope. -/
def setupGlobe (st : VState) : VState :=
  let st' := { st with colorScale := determineColorScale st.dataColors }
  { st' with
    globePolygons := st'.catalog.filter (fun f => f.iso_a2 ≠ "AQ"),
    capColor := .fromSetup }

/-- JS string rendering of a value where the source templates one (legend
labels, tooltip values). Non-integer numbers are rendered via the rational's
`Repr`; the claims only exercise strings and integers. -/
def jvalToString : JVal → String
  | .str s => s
  | .num q => if q.den = 1 then toString q.num else toString (repr q)
  | .undef => "undefined"

/-- `value.toFixed(2)`: round half away from zero to two decimals and render
with exactly two fraction digits. -/
def toFixed2 (q : ℚ) : String :=
  let neg := q < 0
  let n : ℤ := ⌊(if neg then -q else q) * 100 + 1/2⌋
  let n' := n.toNat
  let ip := n' / 100
  let fp := n' % 100
  (if neg ∧ n' ≠ 0 then "-" else "") ++ toString ip ++ "." ++
    (if fp < 10 then "0" else "") ++ toString fp

/-- The numeric branch of `updateLegend` (`visual.ts:258-288`): a fresh
`d3.scaleSequential(d3.interpolateYlOrRd)` over `[Math.min, Math.max]`, six
entries at `min + i * (max - min) / 5`, labels `value.toFixed(2)`. When a
non-numeric element poisons `Math.min`/`Math.max`, every sample value is NaN:
the scale returns its `unknown` and `toFixed` renders `"NaN"`. -/
def buildNumericLegend (colors : List JVal) : List (D3Color × String) :=
  match jsMin colors, jsMax colors with
  | some m, some M =>
      (List.range 6).map (fun (i : Nat) =>
        let v := m + (i : ℚ) * ((M - m) / 5)
        (mkSeqColor m M v, toFixed2 v))
  | _, _ => (List.range 6).map (fun _ => (D3Color.undefinedColor, "NaN"))

/-- The discrete branch of `updateLegend` (`visual.ts:289-311`): one entry per
distinct color value, colored through `this.colorScale`, labelled by
`dataMeasuresDisplayName[index] || category`. -/
def buildDiscreteLegend (scale : ScaleModel) (colors : List JVal)
    (names : List String) : List (D3Color × String) :=
  (dedupFS colors).enum.map (fun q =>
    (evalScale scale q.2,
      match names.get? q.1 with
      | some s => if s = "" then jvalToString q.2 else s
      | none => jvalToString q.2))

/-- `updateLegend` (`visual.ts:253`): clear the container, rebuild the entries
from the branch chosen by `isNumeric(this.dataColors[0])`, and show the
legend. -/
def updateLegend (st : VState) : VState :=
  let entries :=
    if isNumericB ((st.dataColors.get? 0).getD .undef) then
      buildNumericLegend st.dataColors
    else
      buildDiscreteLegend st.colorScale st.dataColors st.dataMeasuresDisplayName
  { st with legendEntries := entries, legendDisplay := true }

/-- `update` (`visual.ts:116`): reset the per-cycle arrays; with categories
present, bind selections/measures/colors, run `setupGlobe`,
`updateChoropleth`, and show or hide the legend depending on whether a color
field is bound; with categories absent, clear the globe. -/
def update (st0 : VState) (dv : DataView) : VState :=
  let st := { st0 with
    dataMeasuresDisplayName := []
    dataMeasuresValue := []
    dataColors := []
    dataCategories := []
    dataCategoriesSelections := [] }
  match dv.categories? with
  | some cats =>
      let st := { st with
        dataCategories := cats
        dataCategoriesSelections := (List.range cats.length).map SelToken.mk
        dataMeasuresDisplayName := dv.measures.map Prod.fst
        dataMeasuresValue := dv.measures.map Prod.snd
        dataColors := dv.colorValues }
      let st := setupGlobe st
      let st := updateChoropleth st
      if st.dataColors.length > 0 then updateLegend st
      else { st with legendDisplay := false }
  | none => clearGlobe st

/-- Evaluate the currently installed `polygonCapColor` closure on a feature
against the live instance fields. -/
def evalCapColor (st : VState) (f : Feature) : D3Color :=
  match st.capColor with
  | .fromSetup =>
      -- `this.colorScale(d.properties.value ?? 0)`
      evalScale st.colorScale ((f.props.value).getD (.num 0))
  | .fromChoropleth =>
      if st.dataColors.length > 0 then
        -- `colorScale(feat.properties.value || 0)` with the local
        -- `scaleSequentialSqrt(interpolateYlOrRd)` (default domain [0,1])
        let raw := (f.props.value).getD .undef
        let v : JVal := if jsFalsy raw then .num 0 else raw
        match toNumber v with
        | none => .undefinedColor
        | some x => mkSqrtColor x
      else .cssColor "rgba(0, 100, 0, 0.15)"
  | .cleared => .cssColor "#FFFFFF"

/-- `handlePolygonClick` (`visual.ts:213`): the single
`selectionManager.select` call carries
`dataCategoriesSelections[polygon.properties.orderIndex]`; `none` models
passing `undefined`. -/
def handlePolygonClick (st : VState) (polygon : Feature) : Option SelToken :=
  match polygon.props.orderIndex with
  | some k => st.dataCategoriesSelections.get? k
  | none => none

/-- `this.dataMeasuresValue[index][d.orderIndex]` with every JS
out-of-range/absent access yielding `undefined` (`none`). -/
def measureLookup? (ms : List (List JVal)) (idx : Nat) (oi : Option Nat) : Option JVal :=
  (ms.get? idx).bind (fun vals => oi.bind (fun o => vals.get? o))

/-- The `for (const key in d)` loop of `createTooltip` restricted to the
`tooltip{i}` keys (the only keys passing `key.startsWith('tooltip')`; other
keys neither emit text nor advance `index`). State is `(index, accumulated
tooltips)`. -/
def tooltipLoop (ms : List (List JVal)) (oi : Option Nat) :
    List String → Nat × String → Nat × String
  | [], st => st
  | tv :: rest, st =>
      match measureLookup? ms st.1 oi with
      | some v =>
          if v = .str "" then tooltipLoop ms oi rest st
          else tooltipLoop ms oi rest
            (st.1 + 1, st.2 ++ tv ++ ": " ++ jvalToString v ++ "<br />")
      | none => tooltipLoop ms oi rest st

def tooltipHeader : String :=
  "<div style=\"background-color:#585858; padding:5px; border-radius:2px; opacity:0.8\"><b>"

/-- The string returned when measures are bound. -/
def tooltipWithMeasures (admin tooltips : String) : String :=
  tooltipHeader ++ admin ++ "</b> <br />" ++ tooltips ++ "</div>"

/-- The string returned when no measures are bound. -/
def tooltipBare (admin : String) : String :=
  tooltipHeader ++ admin ++ "</b>"

/-- `createTooltip` (`visual.ts:321`) on a feature's display name, stamped
`orderIndex`, `tooltip{i}` attribute values (in key order), and the bound
measure value lists. -/
def createTooltip (ms : List (List JVal)) (admin : String) (oi : Option Nat)
    (tvs : List String) : String :=
  if ms.length > 0 then
    tooltipWithMeasures admin (tooltipLoop ms oi tvs (0, "")).2
  else tooltipBare admin

/-! ## Concrete test fixtures -/

/-- A catalog feature with fresh (unstamped) attributes. -/
def mkFeat (iso admin : String) : Feature := ⟨iso, admin, {}⟩

def catalogAB : List Feature := [mkFeat "AA" "Alpha", mkFeat "BB" "Beta"]

def catalogA : List Feature := [mkFeat "AA" "Alpha"]

def catalogAnt : List Feature := [mkFeat "AQ" "Antarctica", mkFeat "AA" "Alpha"]

/-- Two rows with numeric color values 1 and 4, no measures. -/
def dvC1 : DataView := ⟨some ["Alpha", "Beta"], [.num 1, .num 4], []⟩

def stC1 : VState := update (initState catalogAB) dvC1

/-- First cycle: two measures bound. -/
def dvC2a : DataView := ⟨some ["Alpha"], [], [("M0", [.num 1]), ("M1", [.num 2])]⟩

/-- Second cycle: a single measure bound. -/
def dvC2b : DataView := ⟨some ["Alpha"], [], [("M2", [.num 3])]⟩

def stC2 : VState := update (update (initState catalogA) dvC2a) dvC2b

/-- A row whose category equals the AQ feature's display name. -/
def dvC3 : DataView := ⟨some ["Antarctica"], [], []⟩

def stC3 : VState := update (initState catalogAnt) dvC3

/-- A cycle with a bound color field (shows the legend)... -/
def dvC4a : DataView := ⟨some ["Alpha"], [.num 1], []⟩

/-- ...followed by a payload with no category column. -/
def dvC4none : DataView := ⟨none, [], []⟩

def stC4a : VState := update (initState catalogA) dvC4a

def stC4b : VState := update stC4a dvC4none

/-- A rendered feature stamped with `orderIndex = 1`. -/
def featK1 : Feature := ⟨"BB", "Beta", { orderIndex := some 1 }⟩

/-! ## Helper lemmas -/

lemma toNumbers?_map_num (cs : List ℚ) : toNumbers? (cs.map .num) = some cs := by
  induction cs with
  | nil => rfl
  | cons a l ih => simp [toNumbers?, toNumber, ih]

lemma jsMin_map_num (a : ℚ) (l : List ℚ) :
    jsMin ((a :: l).map .num) = some (l.foldl minStep a) := by
  rw [jsMin, toNumbers?_map_num]

lemma jsMax_map_num (a : ℚ) (l : List ℚ) :
    jsMax ((a :: l).map .num) = some (l.foldl maxStep a) := by
  rw [jsMax, toNumbers?_map_num]

lemma foldl_minStep_mem : ∀ (xs : List ℚ) (x : ℚ), xs.foldl minStep x ∈ x :: xs := by
  intro xs
  induction xs with
  | nil => intro x; simp
  | cons y ys ih =>
      intro x
      rw [List.foldl_cons]
      rcases List.mem_cons.mp (ih (minStep x y)) with h1 | h1
      · rw [h1, minStep]
        split
        · exact List.mem_cons_of_mem _ (List.mem_cons_self _ _)
        · exact List.mem_cons_self _ _
      · exact List.mem_cons_of_mem _ (List.mem_cons_of_mem _ h1)

lemma minStep_le_left (x z : ℚ) : minStep x z ≤ x := by
  rw [minStep]; split
  · assumption
  · exact le_refl x

lemma minStep_le_right (x z : ℚ) : minStep x z ≤ z := by
  rw [minStep]; split
  · exact le_refl z
  · exact le_of_not_le (by assumption)

lemma foldl_minStep_le : ∀ (xs : List ℚ) (x y : ℚ), y ∈ x :: xs → xs.foldl minStep x ≤ y := by
  intro xs
  induction xs with
  | nil =>
      intro x y hy
      rcases List.mem_cons.mp hy with rfl | h
      · exact le_refl y
      · exact absurd h (List.not_mem_nil y)
  | cons z zs ih =>
      intro x y hy
      rw [List.foldl_cons]
      have hself : zs.foldl minStep (minStep x z) ≤ minStep x z :=
        ih (minStep x z) (minStep x z) (List.mem_cons_self _ _)
      rcases List.mem_cons.mp hy with rfl | hy'
      · exact le_trans hself (minStep_le_left y z)
      · rcases List.mem_cons.mp hy' with rfl | hy''
        · exact le_trans hself (minStep_le_right x y)
        · exact ih (minStep x z) y (List.mem_cons_of_mem _ hy'')

lemma foldl_maxStep_mem : ∀ (xs : List ℚ) (x : ℚ), xs.foldl maxStep x ∈ x :: xs := by
  intro xs
  induction xs with
  | nil => intro x; simp
  | cons y ys ih =>
      intro x
      rw [List.foldl_cons]
      rcases List.mem_cons.mp (ih (maxStep x y)) with h1 | h1
      · rw [h1, maxStep]
        split
        · exact List.mem_cons_of_mem _ (List.mem_cons_self _ _)
        · exact List.mem_cons_self _ _
      · exact List.mem_cons_of_mem _ (List.mem_cons_of_mem _ h1)

lemma le_maxStep_left (x z : ℚ) : x ≤ maxStep x z := by
  rw [maxStep]; split
  · assumption
  · exact le_refl x

lemma le_maxStep_right (x z : ℚ) : z ≤ maxStep x z := by
  rw [maxStep]; split
  · exact le_refl z
  · exact le_of_not_le (by assumption)

lemma foldl_maxStep_ge : ∀ (xs : List ℚ) (x y : ℚ), y ∈ x :: xs → y ≤ xs.foldl maxStep x := by
  intro xs
  induction xs with
  | nil =>
      intro x y hy
      rcases List.mem_cons.mp hy with rfl | h
      · exact le_refl y
      · exact absurd h (List.not_mem_nil y)
  | cons z zs ih =>
      intro x y hy
      rw [List.foldl_cons]
      have hself : maxStep x z ≤ zs.foldl maxStep (maxStep x z) :=
        ih (maxStep x z) (maxStep x z) (List.mem_cons_self _ _)
      rcases List.mem_cons.mp hy with rfl | hy'
      · exact le_trans (le_maxStep_left y z) hself
      · rcases List.mem_cons.mp hy' with rfl | hy''
        · exact le_trans (le_maxStep_right x y) hself
        · exact ih (maxStep x z) y (List.mem_cons_of_mem _ hy'')

lemma dedupFS_go (cs : List JVal) : ∀ acc : List JVal,
    cs.foldl (fun a v => if v ∈ a then a else a ++ [v]) acc
      = acc ++ firstSeen (cs.filter (fun v => decide (v ∉ acc))) := by
  induction cs with
  | nil => intro acc; simp [firstSeen]
  | cons v cs ih =>
      intro acc
      by_cases hv : v ∈ acc
      · rw [List.foldl_cons, if_pos hv, ih acc, List.filter_cons]
        simp [hv]
      · rw [List.foldl_cons, if_neg hv, ih (acc ++ [v]), List.filter_cons]
        have hd : decide (v ∉ acc) = true := by simp [hv]
        rw [hd]
        simp only [if_true, firstSeen, List.append_assoc, List.singleton_append]
        congr 2
        rw [List.filter_filter]
        congr 1
        apply List.filter_congr
        intro a _
        simp [List.mem_append, not_or, and_comm]

lemma dedupFS_eq_firstSeen (cs : List JVal) : dedupFS cs = firstSeen cs := by
  rw [dedupFS, dedupFS_go cs []]
  simp

lemma mem_firstSeen (l : List JVal) (v : JVal) : v ∈ firstSeen l ↔ v ∈ l := by
  induction l using firstSeen.induct with
  | case1 => simp [firstSeen]
  | case2 w ws ih =>
      rw [firstSeen]
      by_cases hv : v = w
      · subst hv; simp
      · simp only [List.mem_cons, ih, List.mem_filter]
        constructor
        · rintro (h | ⟨h, _⟩)
          · exact Or.inl h
          · exact Or.inr h
        · rintro (h | h)
          · exact Or.inl h
          · exact Or.inr ⟨h, by simpa using hv⟩

lemma nodup_firstSeen (l : List JVal) : (firstSeen l).Nodup := by
  induction l using firstSeen.induct with
  | case1 => simp [firstSeen]
  | case2 w ws ih =>
      rw [firstSeen]
      refine List.nodup_cons.mpr ⟨?_, ih⟩
      intro hmem
      have := (mem_firstSeen _ _).mp hmem
      simp at this

lemma setupGlobe_selections (st : VState) :
    (setupGlobe st).dataCategoriesSelections = st.dataCategoriesSelections := rfl

lemma updateChoropleth_selections (st : VState) :
    (updateChoropleth st).dataCategoriesSelections = st.dataCategoriesSelections := by
  unfold updateChoropleth clearGlobe
  split <;> rfl

lemma updateLegend_selections (st : VState) :
    (updateLegend st).dataCategoriesSelections = st.dataCategoriesSelections := rfl

/-- Within a cycle whose payload has a category column, the selection token
list is exactly one token per row index, untouched by the later pipeline
stages. -/
lemma update_selections (st0 : VState) (cats : List String) (cols : List JVal)
    (ms : List (String × List JVal)) :
    (update st0 ⟨some cats, cols, ms⟩).dataCategoriesSelections
      = (List.range cats.length).map SelToken.mk := by
  unfold update
  split
  next cats' heq =>
    have h : cats = cats' := by simpa using heq
    subst h
    dsimp only
    split <;>
      simp only [updateLegend_selections, updateChoropleth_selections, setupGlobe_selections]
  next heq => simp at heq

lemma tooltipLoop_none (ms : List (List JVal)) (oi : Option Nat)
    (h : ∀ i, measureLookup? ms i oi = none) :
    ∀ (tvs : List String) (st : Nat × String), tooltipLoop ms oi tvs st = st := by
  intro tvs
  induction tvs with
  | nil => intro st; rfl
  | cons tv rest ih =>
      intro st
      rw [tooltipLoop, h st.1]
      exact ih st

/-! ## Claims -/

/-- C1: refuted at a concrete input. With rows (Alpha, 1), (Beta, 4) the Color
Classifier's scale is the sequential YlOrRd scale over [1, 4], but the rendered
cap color of the feature carrying value 1 is `interpolateYlOrRd(1)` (the
choropleth closure's own sqrt scale over the default domain [0,1]), while the
legend's entry for value 1 shows `interpolateYlOrRd(0)` (a third, freshly built
scale over [1,4]): the rendered color and the legend color for the same value
differ, so the same-instance invariant fails on the code. -/
theorem claim1_render_legend_diverge :
    stC1.colorScale = .seqYlOrRd (some 1) (some 4)
    ∧ (stC1.globePolygons.head?).map (fun f => f.props.value) = some (some (.num 1))
    ∧ (stC1.globePolygons.head?).map (evalCapColor stC1) = some (.ylOrRdParam 1)
    ∧ stC1.legendEntries.head? = some (.ylOrRdParam 0, "1.00")
    ∧ D3Color.ylOrRdParam 1 ≠ D3Color.ylOrRdParam 0 := by
  refine ⟨rfl, rfl, rfl, ?_, by decide⟩
  have h0 : stC1.legendEntries = buildNumericLegend [JVal.num 1, JVal.num 4] := rfl
  rw [h0, buildNumericLegend]
  rw [show jsMin [JVal.num 1, JVal.num 4] = some 1 from rfl,
      show jsMax [JVal.num 1, JVal.num 4] = some 4 from rfl]
  rw [show List.range 6 = [0, 1, 2, 3, 4, 5] from rfl]
  simp only [List.map_cons, List.head?_cons, Option.some.injEq]
  have hv : (1 : ℚ) + (↑(0 : ℕ)) * (((4 : ℚ) - 1) / 5) = 1 := by push_cast; ring
  rw [hv]
  refine Prod.ext ?_ ?_
  · show mkSeqColor 1 4 1 = .ylOrRdParam 0
    rw [mkSeqColor, if_neg (by norm_num)]
    norm_num [clamp01]
  · show toFixed2 1 = "1.00"
    rw [toFixed2]
    norm_num
    rfl

/-- C2: refuted at a concrete input. Cycle 1 binds measures "M0", "M1" and
stamps `tooltip0`, `tooltip1` on the matched feature; cycle 2 binds the single
measure "M2" and overwrites only `tooltip0` — the rendered feature still
carries `tooltip1 = "M1"` written by the earlier cycle (the filtered list
shares its feature objects with the catalog, so stamped attributes survive
cycles). -/
theorem claim2_stale_tooltip_leaks :
    stC2.dataMeasuresDisplayName.length = 1
    ∧ (stC2.globePolygons.head?).map (fun f => lookupTooltip f.props.tooltips 1)
        = some (some "M1") := by
  refine ⟨rfl, rfl⟩

/-- C3: refuted at a concrete input. `setupGlobe` excludes the `'AQ'` feature,
but `updateChoropleth` then replaces the polygon set with the category-filtered
list, which applies no `'AQ'` filter: a row whose category equals the AQ
feature's display name puts it back into the rendered set. -/
theorem claim3_aq_rendered :
    stC3.globePolygons.map Feature.iso_a2 = ["AQ"]
    ∧ stC3.globePolygons.any (fun f => f.iso_a2 = "AQ") = true := by
  refine ⟨rfl, rfl⟩

/-- C4: refuted at a concrete input. After a cycle that showed the legend, an
update whose payload has no category column clears the polygon set and installs
the constant white cap color, but `clearGlobe` never touches the legend
container: the legend stays displayed instead of being suppressed. -/
theorem claim4_legend_not_suppressed :
    stC4a.legendDisplay = true
    ∧ stC4b.globePolygons = []
    ∧ stC4b.capColor = .cleared
    ∧ stC4b.legendDisplay = true := by
  refine ⟨rfl, rfl, rfl, rfl⟩

/-- C5: for a non-empty all-numeric color-value sequence, `determineColorScale`
builds the continuous sequential scale whose domain is exactly
[min(colorValues), max(colorValues)], and in the degenerate case min = max the
scale still returns the flat color `interpolateYlOrRd(0.5)` for every numeric
input (d3's `k10 === 0` path), without failing. -/
theorem claim5_numeric_scale_domain (cs : List ℚ) (m M : ℚ)
    (h1 : jsMin (cs.map .num) = some m) (h2 : jsMax (cs.map .num) = some M) :
    determineColorScale (cs.map .num) = .seqYlOrRd (some m) (some M)
    ∧ m ∈ cs ∧ M ∈ cs
    ∧ (∀ x ∈ cs, m ≤ x ∧ x ≤ M)
    ∧ (m = M → ∀ x : ℚ,
        evalScale (determineColorScale (cs.map .num)) (.num x) = .ylOrRdParam (1/2)) := by
  obtain ⟨a, l, rfl⟩ : ∃ a l, cs = a :: l := by
    cases cs with
    | nil => rw [jsMin, toNumbers?_map_num] at h1; exact Option.noConfusion h1
    | cons a l => exact ⟨a, l, rfl⟩
  rw [jsMin_map_num] at h1
  rw [jsMax_map_num] at h2
  have hm : m = l.foldl minStep a := (Option.some.injEq _ _).mp h1.symm
  have hM : M = l.foldl maxStep a := (Option.some.injEq _ _).mp h2.symm
  have hscale : determineColorScale ((a :: l).map .num) = .seqYlOrRd (some m) (some M) := by
    rw [determineColorScale, if_pos (by rfl), jsMin_map_num, jsMax_map_num, hm, hM]
  refine ⟨hscale, ?_, ?_, ?_, ?_⟩
  · rw [hm]; exact foldl_minStep_mem l a
  · rw [hM]; exact foldl_maxStep_mem l a
  · intro x hx
    exact ⟨hm ▸ foldl_minStep_le l a x hx, hM ▸ foldl_maxStep_ge l a x hx⟩
  · intro hmM x
    rw [hscale, hmM]
    show evalSeq (some M) (some M) (.num x) = .ylOrRdParam (1/2)
    rw [evalSeq]
    show mkSeqColor M M x = .ylOrRdParam (1/2)
    rw [mkSeqColor, if_pos rfl]
    norm_num [clamp01]

/-- C5 witness: the general theorem instantiated at colorValues = [10, 20]. -/
theorem claim5_witness :
    (jsMin ([(10 : ℚ), 20].map .num) = some 10) ∧ (jsMax ([(10 : ℚ), 20].map .num) = some 20)
    ∧ (determineColorScale ([(10 : ℚ), 20].map .num) = .seqYlOrRd (some 10) (some 20)
       ∧ (10 : ℚ) ∈ [(10 : ℚ), 20] ∧ (20 : ℚ) ∈ [(10 : ℚ), 20]
       ∧ (∀ x ∈ [(10 : ℚ), 20], 10 ≤ x ∧ x ≤ 20)
       ∧ ((10 : ℚ) = 20 → ∀ x : ℚ,
           evalScale (determineColorScale ([(10 : ℚ), 20].map .num)) (.num x)
             = .ylOrRdParam (1/2))) :=
  ⟨by decide, by decide, claim5_numeric_scale_domain [10, 20] 10 20 (by decide) (by decide)⟩

/-- C6: when the first color value is not numeric, `determineColorScale` builds
the ordinal `schemeCategory10` scale whose domain is exactly the distinct color
values in first-seen order (`firstSeen`), each domain value is colored by its
domain position cycling through the 10-color palette, and equal values always
receive the same color. -/
theorem claim6_discrete_scale (cs : List JVal)
    (h : isNumericB ((cs.get? 0).getD .undef) = false) :
    determineColorScale cs = .ordCat10 (firstSeen cs)
    ∧ (firstSeen cs).Nodup
    ∧ (∀ v, v ∈ firstSeen cs ↔ v ∈ cs)
    ∧ (∀ v ∈ cs,
        evalScale (determineColorScale cs) v = .cat10 ((firstSeen cs).indexOf v % 10))
    ∧ (∀ v w, v = w →
        evalScale (determineColorScale cs) v = evalScale (determineColorScale cs) w) := by
  have hscale : determineColorScale cs = .ordCat10 (firstSeen cs) := by
    rw [determineColorScale, if_neg (by rw [h]; exact Bool.false_ne_true),
      dedupFS_eq_firstSeen]
  refine ⟨hscale, nodup_firstSeen cs, fun v => mem_firstSeen cs v, ?_, ?_⟩
  · intro v _
    rw [hscale]
    rfl
  · intro v w hvw
    rw [hvw]

/-- C6 witness: the theorem instantiated at colorValues = ["red", "blue",
"red"], whose distinct values in first-seen order are ["red", "blue"]. -/
theorem claim6_witness :
    (isNumericB (([JVal.str "red", .str "blue", .str "red"].get? 0).getD .undef) = false)
    ∧ (determineColorScale [JVal.str "red", .str "blue", .str "red"]
        = .ordCat10 (firstSeen [JVal.str "red", .str "blue", .str "red"])
       ∧ (firstSeen [JVal.str "red", .str "blue", .str "red"]).Nodup
       ∧ (∀ v, v ∈ firstSeen [JVal.str "red", .str "blue", .str "red"]
            ↔ v ∈ [JVal.str "red", .str "blue", .str "red"])
       ∧ (∀ v ∈ [JVal.str "red", .str "blue", .str "red"],
            evalScale (determineColorScale [JVal.str "red", .str "blue", .str "red"]) v
              = .cat10 ((firstSeen [JVal.str "red", .str "blue", .str "red"]).indexOf v % 10))
       ∧ (∀ v w, v = w →
            evalScale (determineColorScale [JVal.str "red", .str "blue", .str "red"]) v
              = evalScale (determineColorScale [JVal.str "red", .str "blue", .str "red"]) w)) :=
  ⟨by decide, claim6_discrete_scale [JVal.str "red", .str "blue", .str "red"] (by decide)⟩

/-- C7: for a numeric color-value sequence with minimum `m` and maximum `M`,
the numeric legend has exactly 6 entries (steps = 5), entry `i` samples
`m + i * (M - m) / 5` — so the first sample is `m` and the last is `M` — and
each label is the sample value rendered to two decimal places. -/
theorem claim7_numeric_legend_sampling (cs : List ℚ) (m M : ℚ)
    (h1 : jsMin (cs.map .num) = some m) (h2 : jsMax (cs.map .num) = some M) :
    (buildNumericLegend (cs.map .num)).length = 6
    ∧ (∀ i : Nat, i < 6 → (buildNumericLegend (cs.map .num)).get? i
        = some (mkSeqColor m M (m + (i : ℚ) * ((M - m) / 5)),
            toFixed2 (m + (i : ℚ) * ((M - m) / 5))))
    ∧ m + ((0 : Nat) : ℚ) * ((M - m) / 5) = m
    ∧ m + ((5 : Nat) : ℚ) * ((M - m) / 5) = M := by
  have hB : buildNumericLegend (cs.map .num)
      = (List.range 6).map (fun (i : Nat) =>
          (mkSeqColor m M (m + (i : ℚ) * ((M - m) / 5)),
           toFixed2 (m + (i : ℚ) * ((M - m) / 5)))) := by
    rw [buildNumericLegend, h1, h2]
  refine ⟨?_, ?_, by push_cast; ring, by push_cast; field_simp⟩
  · rw [hB]
    simp
  · intro i hi
    rw [hB, List.get?_map, List.get?_range hi]
    rfl

/-- C7 witness: the theorem instantiated at colorValues = [10, 20]. -/
theorem claim7_witness :
    (jsMin ([(10 : ℚ), 20].map .num) = some 10) ∧ (jsMax ([(10 : ℚ), 20].map .num) = some 20)
    ∧ ((buildNumericLegend ([(10 : ℚ), 20].map .num)).length = 6
       ∧ (∀ i : Nat, i < 6 → (buildNumericLegend ([(10 : ℚ), 20].map .num)).get? i
            = some (mkSeqColor 10 20 (10 + (i : ℚ) * (((20 : ℚ) - 10) / 5)),
                toFixed2 (10 + (i : ℚ) * (((20 : ℚ) - 10) / 5))))
       ∧ (10 : ℚ) + ((0 : Nat) : ℚ) * (((20 : ℚ) - 10) / 5) = 10
       ∧ (10 : ℚ) + ((5 : Nat) : ℚ) * (((20 : ℚ) - 10) / 5) = 20) :=
  ⟨by decide, by decide, claim7_numeric_legend_sampling [10, 20] 10 20 (by decide) (by decide)⟩

/-- C8: over a payload with a category column of N rows, the selection token
list has length N and `token[i]` is the token built from the row with
`orderIndex = i`; clicking a rendered feature stamped with `orderIndex = k`
(k in range) issues exactly one selection request carrying `token[k]`. -/
theorem claim8_selection_tokens (st0 : VState) (cats : List String) (cols : List JVal)
    (ms : List (String × List JVal)) (f : Feature) (k : Nat)
    (hf : f.props.orderIndex = some k) (hk : k < cats.length) :
    (update st0 ⟨some cats, cols, ms⟩).dataCategoriesSelections.length = cats.length
    ∧ (∀ i : Nat, i < cats.length →
        (update st0 ⟨some cats, cols, ms⟩).dataCategoriesSelections.get? i = some ⟨i⟩)
    ∧ handlePolygonClick (update st0 ⟨some cats, cols, ms⟩) f = some ⟨k⟩ := by
  have hsel := update_selections st0 cats cols ms
  refine ⟨?_, ?_, ?_⟩
  · rw [hsel]
    simp
  · intro i hi
    rw [hsel, List.get?_map, List.get?_range hi]
    rfl
  · simp only [handlePolygonClick, hf, hsel, List.get?_map, List.get?_range hk]
    rfl

/-- C8 witness: two rows; clicking the feature stamped `orderIndex = 1`
selects token 1. -/
theorem claim8_witness :
    featK1.props.orderIndex = some 1
    ∧ 1 < (["Alpha", "Beta"] : List String).length
    ∧ ((update (initState catalogAB) ⟨some ["Alpha", "Beta"], [], []⟩).dataCategoriesSelections.length
          = (["Alpha", "Beta"] : List String).length
       ∧ (∀ i : Nat, i < (["Alpha", "Beta"] : List String).length →
            (update (initState catalogAB)
                ⟨some ["Alpha", "Beta"], [], []⟩).dataCategoriesSelections.get? i
              = some ⟨i⟩)
       ∧ handlePolygonClick
            (update (initState catalogAB) ⟨some ["Alpha", "Beta"], [], []⟩) featK1
          = some ⟨1⟩) :=
  ⟨rfl, by decide,
    claim8_selection_tokens (initState catalogAB) ["Alpha", "Beta"] [] [] featK1 1 rfl
      (by decide)⟩

/-- C9: the tooltip builder never fails on missing data: whatever the inputs,
the produced string contains the feature's display name, and when every
measure lookup at the feature's `orderIndex` is absent/out of range, every
entry renders as the empty string (the tooltip body is empty). -/
theorem claim9_tooltip_missing_lookup (ms : List (List JVal)) (admin : String)
    (oi : Option Nat) (tvs : List String)
    (h : ∀ i, measureLookup? ms i oi = none) :
    (∀ (ms' : List (List JVal)) (a : String) (o : Option Nat) (t : List String),
        ∃ pre post, createTooltip ms' a o t = pre ++ a ++ post)
    ∧ createTooltip ms admin oi tvs
        = (if ms.length > 0 then tooltipWithMeasures admin "" else tooltipBare admin) := by
  constructor
  · intro ms' a o t
    rw [createTooltip]
    by_cases hl : ms'.length > 0
    · rw [if_pos hl]
      refine ⟨tooltipHeader, "</b> <br />" ++ (tooltipLoop ms' o t (0, "")).2 ++ "</div>", ?_⟩
      rw [tooltipWithMeasures]
      simp [String.append_assoc]
    · rw [if_neg hl]
      exact ⟨tooltipHeader, "</b>", rfl⟩
  · rw [createTooltip, tooltipLoop_none ms oi h tvs (0, "")]

/-- C9 witness: one bound measure with a single value, a feature stamped
`orderIndex = 5` (out of range): the tooltip body is empty and the display
name is present. -/
theorem claim9_witness :
    (∀ i : Nat, measureLookup? [[JVal.num 1]] i (some 5) = none)
    ∧ ((∀ (ms' : List (List JVal)) (a : String) (o : Option Nat) (t : List String),
          ∃ pre post, createTooltip ms' a o t = pre ++ a ++ post)
       ∧ createTooltip [[JVal.num 1]] "France" (some 5) ["Population"]
          = (if ([[JVal.num 1]] : List (List JVal)).length > 0
             then tooltipWithMeasures "France" "" else tooltipBare "France")) :=
  ⟨fun i => by cases i <;> rfl,
    claim9_tooltip_missing_lookup [[JVal.num 1]] "France" (some 5) ["Population"]
      (fun i => by cases i <;> rfl)⟩

/-- C10: the classifier's branch is decided solely by whether the first color
value coerces to a finite number: a numeric string "10" takes the continuous
branch (even when later elements are not numeric), and the empty color-value
list (first element `undefined`) takes the discrete branch, yielding an
ordinal scale with an empty domain rather than a dedicated neutral scale. -/
theorem claim10_first_element_decides :
    (∀ cs : List JVal,
        (determineColorScale cs).isSeq = isNumericB ((cs.get? 0).getD .undef))
    ∧ isNumericB (.str "10") = true
    ∧ determineColorScale [.str "10"] = .seqYlOrRd (some 10) (some 10)
    ∧ determineColorScale [.str "10", .str "x"] = .seqYlOrRd none none
    ∧ determineColorScale [] = .ordCat10 [] := by
  refine ⟨?_, by decide, by decide, by decide, by decide⟩
  intro cs
  rw [determineColorScale]
  by_cases h : isNumericB ((cs.get? 0).getD .undef)
  · rw [if_pos h, h]
    rfl
  · rw [if_neg h]
    simp only [Bool.not_eq_true] at h
    rw [h]
    rfl

end GlobeVis
